import Mathlib

/-!
Verification of the telemetry state-management core of the Car-Tools
repository: rolling history buffers, the websocket connection session,
the snapshot poller, the trend normalizer (Sparkline), the alert
classifier, field-series projection, and diagnostic-trouble-code
normalization.  Each definition is a shallow embedding of the
corresponding JavaScript in the repository; theorems settle the frozen
claims about that code.
-/

namespace CarTools

/-! ## JavaScript numeric values

Telemetry field values are JavaScript numbers after a Number(...)
conversion: either NaN or an actual (here: rational) number.  A value
wrapped in Option models the JS null/undefined cases, which the code
tests with v == null. -/

inductive JsNum where
  | nan : JsNum
  | num : ℚ → JsNum
deriving DecidableEq, Repr

/-! ## Rolling History Store (Dashboard.jsx ws.onmessage)

The detail window is updated with setHistory(prev concatenated with the
new record, then sliced to the last 120 entries); the raw-feed window
with setMessages(new record consed in front, then sliced to the first
20 entries). -/

variable {α : Type}

/-- Embedding of the JS expression arr.slice(-n): the last n elements of
the array, or the whole array when it is shorter than n. -/
def sliceLast (n : Nat) (l : List α) : List α := l.drop (l.length - n)

/-- Dashboard.jsx line 112: setHistory(prev mapped to the concatenation
with the new record, sliced to the last 120 entries). -/
def historyAppend (prev : List α) (data : α) : List α :=
  sliceLast 120 (prev ++ [data])

/-- Dashboard.jsx line 111: setMessages(prev with the new record consed
in front, sliced with slice(0, 20) to the first 20 entries). -/
def messagesAppend (prev : List α) (data : α) : List α :=
  (data :: prev).take 20

/-- The detail window obtained by feeding a whole chronological sequence
of appends through the store, starting empty. -/
def runHistory (xs : List α) : List α := xs.foldl historyAppend []

/-- The raw-feed window obtained by feeding a whole chronological
sequence of appends through the store, starting empty. -/
def runMessages (xs : List α) : List α := xs.foldl messagesAppend []

/-- Specification-side notion: the n most recent appends of a
chronological sequence, still in chronological order. -/
def mostRecentChrono (n : Nat) (xs : List α) : List α :=
  ((xs.reverse).take n).reverse

/-- Specification-side notion: the n most recent appends of a
chronological sequence, most recent first. -/
def mostRecentFirst (n : Nat) (xs : List α) : List α :=
  (xs.reverse).take n

lemma sliceLast_eq_reverse_take (n : Nat) (l : List α) :
    sliceLast n l = ((l.reverse).take n).reverse := by
  rw [List.take_reverse, List.reverse_reverse]
  rfl

lemma length_sliceLast_le (n : Nat) (l : List α) :
    (sliceLast n l).length ≤ n := by
  simp only [sliceLast, List.length_drop]
  omega

lemma take_append_take (n : Nat) (l m : List α) :
    (l ++ m.take n).take n = (l ++ m).take n := by
  rw [List.take_append_eq_append_take, List.take_append_eq_append_take,
    List.take_take, Nat.min_eq_left (Nat.sub_le n l.length)]

lemma foldl_messagesAppend (xs : List α) :
    ∀ prev : List α, prev.length ≤ 20 →
      xs.foldl messagesAppend prev = (xs.reverse ++ prev).take 20 := by
  induction xs with
  | nil =>
      intro prev hp
      simp [List.take_of_length_le hp]
  | cons x xs ih =>
      intro prev hp
      rw [List.foldl_cons]
      rw [ih (messagesAppend prev x) (by simp [messagesAppend])]
      show (xs.reverse ++ (x :: prev).take 20).take 20 = _
      rw [take_append_take]
      simp

lemma sliceLast_append_absorb (n : Nat) (l m : List α) :
    sliceLast n (sliceLast n l ++ m) = sliceLast n (l ++ m) := by
  rw [sliceLast_eq_reverse_take n (sliceLast n l ++ m),
    sliceLast_eq_reverse_take n (l ++ m)]
  congr 1
  rw [List.reverse_append, sliceLast_eq_reverse_take, List.reverse_reverse,
    take_append_take]
  congr 1
  rw [List.reverse_append]

lemma foldl_historyAppend (xs : List α) :
    ∀ prev : List α, prev.length ≤ 120 →
      xs.foldl historyAppend prev = sliceLast 120 (prev ++ xs) := by
  induction xs with
  | nil =>
      intro prev hp
      simp [sliceLast, Nat.sub_eq_zero_of_le hp]
  | cons x xs ih =>
      intro prev hp
      rw [List.foldl_cons]
      rw [ih (historyAppend prev x) (length_sliceLast_le 120 _)]
      show sliceLast 120 (sliceLast 120 (prev ++ [x]) ++ xs) = _
      rw [sliceLast_append_absorb]
      simp

/-- C1.  For every sequence of appends, the Rolling History Store is
bounded and evicts oldest-first: the detail window holds at most 120
entries and equals the 120 most recent appends in chronological order,
the raw-feed window holds at most 20 entries and equals the 20 most
recent appends most-recent-first, and a single insert into either
window never yields a length above its capacity. -/
theorem rolling_history_bounded_fifo (xs : List α) :
    runHistory xs = mostRecentChrono 120 xs ∧
    (runHistory xs).length ≤ 120 ∧
    runMessages xs = mostRecentFirst 20 xs ∧
    (runMessages xs).length ≤ 20 ∧
    (∀ (prev : List α) (x : α), (historyAppend prev x).length ≤ 120) ∧
    (∀ (prev : List α) (x : α), (messagesAppend prev x).length ≤ 20) := by
  have h1 : runHistory xs = mostRecentChrono 120 xs := by
    rw [runHistory, foldl_historyAppend xs [] (by simp), mostRecentChrono,
      ← sliceLast_eq_reverse_take]
    simp
  have h2 : runMessages xs = mostRecentFirst 20 xs := by
    rw [runMessages, foldl_messagesAppend xs [] (by simp), mostRecentFirst]
    simp
  refine ⟨h1, ?_, h2, ?_, ?_, ?_⟩
  · rw [h1, mostRecentChrono]
    simp only [List.length_reverse, List.length_take]
    omega
  · rw [h2, mostRecentFirst]
    simp only [List.length_take]
    omega
  · intro prev x
    exact length_sliceLast_le 120 _
  · intro prev x
    simp only [messagesAppend, List.length_take]
    omega

/-! ## Connection Session (Dashboard.jsx / DiagnosticsPage.jsx)

startDiagnostics opens a new WebSocket only when the mutable reference
wsRef.current is null; stopDiagnostics closes and nulls the reference
when it is set, and is a no-op otherwise.  The onclose handler of every
socket nulls wsRef.current unconditionally, without checking that the
closing socket is still the referenced one.

The model gives every transport a fresh numeric id (nextId counts the
transports created so far) and tracks, as the instrumentation field
live, the ids of transports that have been created and not yet closed:
a transport leaves live either when stopDiagnostics closes it or when
its close event fires. -/

structure Session where
  wsRef : Option Nat
  nextId : Nat
  live : List Nat
deriving DecidableEq, Repr

def Session.init : Session := ⟨none, 0, []⟩

/-- Dashboard.jsx startDiagnostics: early return when wsRef.current is
set; otherwise create a new WebSocket and store it in the reference. -/
def startDiagnostics (s : Session) : Session :=
  match s.wsRef with
  | some _ => s
  | none =>
      { wsRef := some s.nextId
        nextId := s.nextId + 1
        live := s.live ++ [s.nextId] }

/-- Dashboard.jsx stopDiagnostics: when wsRef.current is set, close that
socket and null the reference; otherwise do nothing. -/
def stopDiagnostics (s : Session) : Session :=
  match s.wsRef with
  | some id => { s with wsRef := none, live := s.live.erase id }
  | none => s

/-- The onclose handler registered on the socket with the given id: the
socket has closed (so it leaves live), and the handler nulls
wsRef.current unconditionally, even when the reference meanwhile points
at a different, newer socket. -/
def closeHandler (s : Session) (id : Nat) : Session :=
  { s with wsRef := none, live := s.live.erase id }

inductive WsEvent where
  | start : WsEvent
  | stop : WsEvent
  | closeEvt : Nat → WsEvent
deriving DecidableEq, Repr

def wsStep (s : Session) : WsEvent → Session
  | WsEvent.start => startDiagnostics s
  | WsEvent.stop => stopDiagnostics s
  | WsEvent.closeEvt id => closeHandler s id

def wsRun (s : Session) (es : List WsEvent) : Session := es.foldl wsStep s

/-- A trace is fresh-closing when every close event that it delivers
fires while its socket is still the one held in wsRef: no stale close
event from an already replaced socket. -/
def freshCloses : Session → List WsEvent → Bool
  | _, [] => true
  | s, e :: es =>
      (match e with
       | WsEvent.closeEvt id => decide (s.wsRef = some id)
       | _ => true) && freshCloses (wsStep s e) es

/-- The session invariant tying the reference to the open sockets: the
open sockets are exactly the one the reference holds. -/
def SessionCoherent (s : Session) : Prop := s.live = s.wsRef.toList

lemma sessionCoherent_start {s : Session} (h : SessionCoherent s) :
    SessionCoherent (startDiagnostics s) := by
  cases hw : s.wsRef with
  | none =>
      simp only [SessionCoherent, hw, Option.toList] at h
      simp [SessionCoherent, startDiagnostics, hw, h, Option.toList]
  | some id =>
      simp [SessionCoherent, startDiagnostics, hw] at h ⊢
      simpa [hw] using h

lemma sessionCoherent_stop {s : Session} (h : SessionCoherent s) :
    SessionCoherent (stopDiagnostics s) := by
  cases hw : s.wsRef with
  | none =>
      simpa [SessionCoherent, stopDiagnostics, hw] using h
  | some id =>
      simp only [SessionCoherent, hw, Option.toList] at h
      simp [SessionCoherent, stopDiagnostics, hw, h, Option.toList]

lemma sessionCoherent_close {s : Session} {id : Nat} (h : SessionCoherent s)
    (hid : s.wsRef = some id) : SessionCoherent (closeHandler s id) := by
  simp only [SessionCoherent, hid, Option.toList] at h
  simp [SessionCoherent, closeHandler, h, Option.toList]

lemma sessionCoherent_run {s : Session} {es : List WsEvent}
    (h : SessionCoherent s) (hok : freshCloses s es = true) :
    SessionCoherent (wsRun s es) := by
  induction es generalizing s with
  | nil => exact h
  | cons e es ih =>
      rw [wsRun, List.foldl_cons]
      cases e with
      | start =>
          simp only [freshCloses, Bool.true_and] at hok
          exact ih (sessionCoherent_start h) hok
      | stop =>
          simp only [freshCloses, Bool.true_and] at hok
          exact ih (sessionCoherent_stop h) hok
      | closeEvt id =>
          simp only [freshCloses, Bool.and_eq_true, decide_eq_true_eq] at hok
          exact ih (sessionCoherent_close h hok.1) hok.2

/-- C2, counterexample.  The claim that at most one live transport ever
exists fails on the code: start, stop, start leaves the first socket
with a pending close event; when that stale close event fires, its
handler nulls the reference even though a second, still open socket is
referenced, so a further start creates a third socket while the second
is still open — two live transports at once. -/
theorem session_two_live_transports :
    ¬ ((wsRun Session.init
        [WsEvent.start, WsEvent.stop, WsEvent.start,
         WsEvent.closeEvt 0, WsEvent.start]).live.length ≤ 1) := by
  decide

/-- C2, amended.  start() while a transport reference is held is a
no-op and stop() while Idle is a no-op; start() twice in a row creates
exactly one transport and stop() then start() creates a fresh, second
transport; and for every trace whose close events all fire while their
socket is still the referenced one, at most one live transport exists
after the trace.  (The unrestricted claim fails: a stale close event of
a replaced socket nulls the reference and lets a later start() create a
second live transport, as the counterexample shows.) -/
theorem session_single_transport_amended :
    (∀ s : Session, s.wsRef ≠ none → startDiagnostics s = s) ∧
    (∀ s : Session, s.wsRef = none → stopDiagnostics s = s) ∧
    (wsRun Session.init [WsEvent.start, WsEvent.start]).nextId = 1 ∧
    ((wsRun Session.init [WsEvent.start, WsEvent.stop, WsEvent.start]).wsRef
        = some 1 ∧
      (wsRun Session.init
        [WsEvent.start, WsEvent.stop, WsEvent.start]).nextId = 2) ∧
    (∀ es : List WsEvent, freshCloses Session.init es = true →
      (wsRun Session.init es).live.length ≤ 1) := by
  refine ⟨?_, ?_, by decide, ⟨by decide, by decide⟩, ?_⟩
  · intro s hw
    cases h : s.wsRef with
    | none => exact absurd h hw
    | some id => simp [startDiagnostics, h]
  · intro s hw
    simp [stopDiagnostics, hw]
  · intro es hok
    have h := sessionCoherent_run (s := Session.init) rfl hok
    rw [SessionCoherent] at h
    rw [h]
    cases (wsRun Session.init es).wsRef <;> simp [Option.toList]

/-- C2, witness for the amended theorem: the no-op guards at concrete
states and the single-live-transport bound on a concrete fresh-closing
trace. -/
theorem session_single_transport_amended_witness :
    startDiagnostics ⟨some 0, 1, [0]⟩ = ⟨some 0, 1, [0]⟩ ∧
    stopDiagnostics ⟨none, 5, []⟩ = ⟨none, 5, []⟩ ∧
    (wsRun Session.init
      [WsEvent.start, WsEvent.closeEvt 0, WsEvent.start]).live.length ≤ 1 :=
  ⟨session_single_transport_amended.1 ⟨some 0, 1, [0]⟩ (by decide),
   session_single_transport_amended.2.1 ⟨none, 5, []⟩ rfl,
   session_single_transport_amended.2.2.2.2
     [WsEvent.start, WsEvent.closeEvt 0, WsEvent.start] (by decide)⟩

/-! ## Snapshot Poller (unnamed part_003, SnapshotDashboard)

fetchSnapshot sets loading, issues a fetch against the snapshot API,
stores the parsed body in data on success, only logs on failure, and
finally clears loading.  It is called on mount, by a 2000 ms
setInterval tick, and by the Refresh Now button — in all three cases
unconditionally, with no check of an in-flight fetch.

The model is parametric in the snapshot body type σ.  The
instrumentation fields inflight and started count the fetches issued
and not yet completed, and the fetches issued in total; each call of
fetchSnapshot issues exactly one request. -/

structure Poller (σ : Type) where
  data : Option σ
  loading : Bool
  inflight : Nat
  started : Nat
deriving DecidableEq, Repr

def Poller.init {σ : Type} : Poller σ := ⟨none, true, 0, 0⟩

/-- The synchronous first part of fetchSnapshot: setLoading(true) and
the issuing of the request. -/
def fetchStart {σ : Type} (p : Poller σ) : Poller σ :=
  { p with loading := true, inflight := p.inflight + 1,
           started := p.started + 1 }

/-- The completion of one outstanding fetch.  A successful body is
stored with setData; a failure only reaches console.error, touching no
state; either way the finally block runs setLoading(false). -/
def fetchComplete {σ : Type} (p : Poller σ) (outcome : Option σ) : Poller σ :=
  match outcome with
  | some body =>
      { p with data := some body, loading := false,
               inflight := p.inflight - 1 }
  | none =>
      { p with loading := false, inflight := p.inflight - 1 }

/-- The events that drive the poller: a setInterval tick, a click of
the Refresh Now button, and the completion of an outstanding fetch.
Tick and refresh both just call fetchSnapshot. -/
inductive PollEvent (σ : Type) where
  | tick : PollEvent σ
  | refreshNow : PollEvent σ
  | complete : Option σ → PollEvent σ
deriving DecidableEq, Repr

def pollStep {σ : Type} (p : Poller σ) : PollEvent σ → Poller σ
  | PollEvent.tick => fetchStart p
  | PollEvent.refreshNow => fetchStart p
  | PollEvent.complete o => fetchComplete p o

def pollRun {σ : Type} (p : Poller σ) (es : List (PollEvent σ)) : Poller σ :=
  es.foldl pollStep p

def isTrigger {σ : Type} : PollEvent σ → Bool
  | PollEvent.tick => true
  | PollEvent.refreshNow => true
  | PollEvent.complete _ => false

/-- C3, counterexample.  The claim that a tick or refreshNow arriving
while a fetch is in flight drops the new request fails on the code: a
second tick while the first fetch is still outstanding issues a second
fetch, leaving two outstanding at once. -/
theorem poller_second_fetch_issued :
    ¬ ((pollRun (Poller.init (σ := Unit))
        [PollEvent.tick, PollEvent.tick]).inflight ≤ 1) := by
  decide

lemma pollRun_started {σ : Type} (es : List (PollEvent σ)) :
    ∀ p : Poller σ,
      (pollRun p es).started = p.started + (es.filter isTrigger).length := by
  induction es with
  | nil => intro p; rfl
  | cons e es ih =>
      intro p
      rw [pollRun, List.foldl_cons, ← pollRun]
      cases e with
      | tick => rw [ih]; simp [pollStep, fetchStart, isTrigger]; omega
      | refreshNow => rw [ih]; simp [pollStep, fetchStart, isTrigger]; omega
      | complete o =>
          rw [ih]
          cases o <;> simp [pollStep, fetchComplete, isTrigger]

lemma pollRun_ticks_inflight {σ : Type} (n : Nat) :
    ∀ p : Poller σ,
      (pollRun p (List.replicate n PollEvent.tick)).inflight
        = p.inflight + n := by
  induction n with
  | zero => intro p; rfl
  | succ n ih =>
      intro p
      rw [List.replicate_succ, pollRun, List.foldl_cons, ← pollRun, ih]
      simp [pollStep, fetchStart]
      omega

/-- C3, amended.  The poller has no reentrancy guard: every timer tick
and every refreshNow call issues a fetch unconditionally, whether or
not one is already in flight — the number of fetches issued equals the
number of tick and refresh triggers in the trace, and n consecutive
ticks with no completion in between leave n fetches outstanding at
once. -/
theorem poller_fetch_per_trigger_amended :
    (∀ es : List (PollEvent Unit),
      (pollRun Poller.init es).started = (es.filter isTrigger).length) ∧
    (∀ n : Nat,
      (pollRun (Poller.init (σ := Unit))
        (List.replicate n PollEvent.tick)).inflight = n) := by
  constructor
  · intro es
    rw [pollRun_started es Poller.init]
    simp [Poller.init]
  · intro n
    rw [pollRun_ticks_inflight n Poller.init]
    simp [Poller.init]

/-! ## Diagnostics runner (unnamed part_001, runDiagnostics)

runDiagnostics sets isRunning, clears the error string, clears the
previous result, then fetches; on a non-ok or failing fetch it stores a
human-readable message in error, on success it stores the body in
result and the current time in lastRunAt; finally isRunning is
cleared.  The fetch outcome is modeled as Except String σ, the error
carrying the message the catch block would compute. -/

structure DiagState (σ : Type) where
  isRunning : Bool
  error : String
  result : Option σ
  lastRunAt : Option Nat
deriving DecidableEq, Repr

/-- One full run of runDiagnostics with the given fetch outcome,
completing at time now. -/
def runDiagnostics {σ : Type} (s : DiagState σ) (outcome : Except String σ)
    (now : Nat) : DiagState σ :=
  let s1 : DiagState σ :=
    { s with isRunning := true, error := "", result := none }
  match outcome with
  | Except.ok body =>
      { s1 with result := some body, lastRunAt := some now,
                isRunning := false }
  | Except.error msg =>
      { s1 with error := msg, isRunning := false }

/-- C5, counterexample.  The claim that a failed fetch never erases the
last good result fails on the cited diagnostics runner: runDiagnostics
clears the previous result before fetching, so after a failed run the
previously stored good result is gone (result is none, not the old
value), even though the error field does receive the message. -/
theorem diag_error_erases_result :
    (runDiagnostics (σ := Nat) ⟨false, "", some 7, some 0⟩
        (Except.error ("Diagnostics failed (500).")) 1).result = none ∧
    (runDiagnostics (σ := Nat) ⟨false, "", some 7, some 0⟩
        (Except.error ("Diagnostics failed (500).")) 1).result ≠ some 7 := by
  constructor
  · rfl
  · decide

/-- C5, amended.  The two fetch paths split the claimed behaviour
between them: the snapshot poller (fetchSnapshot) leaves the last good
snapshot untouched on a failed fetch but records no error anywhere —
its state has no error field and the failure only reaches the console —
while the diagnostics runner (runDiagnostics) does store the
human-readable cause in its error field on failure, but has already
cleared the previous result at the start of the run, so after a failed
run the last good result is erased rather than kept. -/
theorem snapshot_error_handling_amended :
    (∀ (σ : Type) (p : Poller σ), (fetchComplete p none).data = p.data) ∧
    (∀ (σ : Type) (s : DiagState σ) (msg : String) (now : Nat),
      (runDiagnostics s (Except.error msg) now).error = msg ∧
      (runDiagnostics s (Except.error msg) now).result = none ∧
      (runDiagnostics s (Except.error msg) now).lastRunAt = s.lastRunAt) := by
  constructor
  · intro σ p
    rfl
  · intro σ s msg now
    exact ⟨rfl, rfl, rfl⟩

/-! ## Snapshot Poller lifecycle and teardown (unnamed part_003)

The useEffect registers the interval and returns a cleanup that calls
clearInterval; the cleanup runs when the component unmounts.  The
embedding also carries the React rule for hook state: a state setter
invoked after the component has unmounted changes no live state, so the
continuation of a fetch that completes after teardown finds only dead
setters.  A cleared interval fires no further ticks; a tick event
against a cleared timer is therefore a non-event. -/

structure PollerLife (σ : Type) where
  mounted : Bool
  timerActive : Bool
  data : Option σ
  loading : Bool
deriving DecidableEq, Repr

inductive LifeEvent (σ : Type) where
  | tick : LifeEvent σ
  | refreshClick : LifeEvent σ
  | teardown : LifeEvent σ
  | complete : Option σ → LifeEvent σ
deriving DecidableEq, Repr

def lifeStep {σ : Type} (s : PollerLife σ) : LifeEvent σ → PollerLife σ
  | LifeEvent.tick =>
      if s.timerActive then { s with loading := true } else s
  | LifeEvent.refreshClick =>
      if s.mounted then { s with loading := true } else s
  | LifeEvent.teardown =>
      { s with mounted := false, timerActive := false }
  | LifeEvent.complete o =>
      if s.mounted then
        match o with
        | some body => { s with data := some body, loading := false }
        | none => { s with loading := false }
      else s

def lifeRun {σ : Type} (s : PollerLife σ) (es : List (LifeEvent σ)) :
    PollerLife σ :=
  es.foldl lifeStep s

lemma lifeStep_of_torn_down {σ : Type} {s : PollerLife σ}
    (hm : s.mounted = false) (ht : s.timerActive = false)
    (e : LifeEvent σ) : lifeStep s e = s := by
  cases e with
  | tick => simp [lifeStep, ht]
  | refreshClick => simp [lifeStep, hm]
  | teardown =>
      cases s
      simp_all [lifeStep]
  | complete o => simp [lifeStep, hm]

/-- C6.  Tearing the poller down clears its timer, and once the
component is unmounted with the timer cleared, no later event — a stray
tick, a refresh click, or the completion of a fetch that was still in
flight at teardown — changes the poller state at all: a completion
arriving after teardown is discarded, never applied. -/
theorem poller_teardown_discards (σ : Type) :
    (∀ s : PollerLife σ, (lifeStep s LifeEvent.teardown).timerActive = false ∧
      (lifeStep s LifeEvent.teardown).mounted = false) ∧
    (∀ (s : PollerLife σ), s.mounted = false → s.timerActive = false →
      ∀ es : List (LifeEvent σ), lifeRun s es = s) := by
  constructor
  · intro s
    exact ⟨rfl, rfl⟩
  · intro s hm ht es
    induction es with
    | nil => rfl
    | cons e es ih =>
        rw [lifeRun, List.foldl_cons, lifeStep_of_torn_down hm ht, ← lifeRun]
        exact ih

/-- C6, witness: a concrete torn-down poller holding a last good
snapshot is left untouched by a stray tick, a late fetch completion and
a refresh click. -/
theorem poller_teardown_discards_witness :
    lifeRun (⟨false, false, some 5, true⟩ : PollerLife Nat)
      [LifeEvent.tick, LifeEvent.complete (some 9), LifeEvent.refreshClick,
       LifeEvent.complete none]
      = ⟨false, false, some 5, true⟩ :=
  (poller_teardown_discards Nat).2 ⟨false, false, some 5, true⟩ rfl rfl
    [LifeEvent.tick, LifeEvent.complete (some 9), LifeEvent.refreshClick,
     LifeEvent.complete none]

/-! ## Stream message handling (Dashboard.jsx and Navbar.jsx onmessage)

An inbound frame either parses as JSON — yielding a message value —
or JSON.parse throws; the thrown exception leaves the handler before
any state update and does not close the socket.  A parsed message as
the scoped handlers see it carries a type tag and a data body; the
model keeps the body uninterpreted as a string. -/

structure WsMsg where
  type : String
  data : String
deriving DecidableEq, Repr

structure DashBuffers where
  messages : List WsMsg
  history : List WsMsg
deriving DecidableEq, Repr

/-- Dashboard.jsx ws.onmessage: parse, then prepend to the raw feed and
append to the detail window — with no check of the type tag.  A parse
failure (raw = none) throws out of the handler before any update. -/
def dashboardOnMessage (b : DashBuffers) (raw : Option WsMsg) : DashBuffers :=
  match raw with
  | none => b
  | some d =>
      { messages := messagesAppend b.messages d
        history := historyAppend b.history d }

/-- Navbar.jsx Fuel_Air_Metrics_Dashboard ws.onmessage: parse, return
early unless the type tag is fuel_air, otherwise append the data body
to the detail window. -/
def fuelAirOnMessage (hist : List String) (raw : Option WsMsg) :
    List String :=
  match raw with
  | none => hist
  | some m =>
      if m.type ≠ ("fuel_air") then hist else historyAppend hist m.data

/-- C4, counterexample.  The claim that only well-formed, recognized
payloads reach the History Store fails on the main Dashboard session:
its onmessage performs no type-tag check, so a well-formed message with
an unrecognized tag is appended to both windows instead of being
dropped. -/
theorem dashboard_appends_unrecognized_tag :
    (dashboardOnMessage ⟨[], []⟩ (some ⟨("bogus_tag"), ("x")⟩)).history
        = [⟨("bogus_tag"), ("x")⟩] ∧
    (dashboardOnMessage ⟨[], []⟩ (some ⟨("bogus_tag"), ("x")⟩)).history ≠ [] := by
  constructor
  · rfl
  · decide

/-- C4, amended.  A malformed frame (one that fails to parse) leaves
every buffer unchanged in both sessions — the parse failure aborts the
handler before any state update and does not close the socket — and the
scoped fuel-air session drops any message whose type tag is not
fuel_air; but the main Dashboard session performs no tag check and
appends every successfully parsed payload, whatever its tag, to both
windows. -/
theorem stream_message_handling_amended :
    (∀ b : DashBuffers, dashboardOnMessage b none = b) ∧
    (∀ h : List String, fuelAirOnMessage h none = h) ∧
    (∀ (h : List String) (m : WsMsg), m.type ≠ ("fuel_air") →
      fuelAirOnMessage h (some m) = h) ∧
    (∀ (h : List String) (m : WsMsg), m.type = ("fuel_air") →
      fuelAirOnMessage h (some m) = historyAppend h m.data) ∧
    (∀ (b : DashBuffers) (m : WsMsg),
      (dashboardOnMessage b (some m)).history = historyAppend b.history m ∧
      (dashboardOnMessage b (some m)).messages = messagesAppend b.messages m) := by
  refine ⟨fun b => rfl, fun h => rfl, ?_, ?_, ?_⟩
  · intro h m hm
    simp [fuelAirOnMessage, hm]
  · intro h m hm
    simp [fuelAirOnMessage, hm]
  · intro b m
    exact ⟨rfl, rfl⟩

/-- C4, witness for the amended theorem: the tag check at concrete
messages with a foreign tag and with the fuel_air tag. -/
theorem stream_message_handling_amended_witness :
    fuelAirOnMessage [("d")] (some ⟨("engine"), ("z")⟩) = [("d")] ∧
    fuelAirOnMessage [] (some ⟨("fuel_air"), ("z")⟩)
      = historyAppend [] ("z") :=
  ⟨stream_message_handling_amended.2.2.1 [("d")] ⟨("engine"), ("z")⟩
      (by decide),
   stream_message_handling_amended.2.2.2.1 [] ⟨("fuel_air"), ("z")⟩ rfl⟩

/-! ## Trend Normalizer (Dashboard.jsx Sparkline)

Sparkline filters the incoming nullable series down to the non-null,
non-NaN values, returns an empty polyline when fewer than two remain,
otherwise derives missing bounds with Math.min / Math.max over the
clean values, replaces a zero span by 1 (the JS expression hi - lo
followed by a falsy-or 1), and maps each valid entry at its original
index to the pair (index times step, height minus the scaled value).
Coordinates are modeled as exact rationals; the JS toFixed(1) string
formatting of each coordinate is outside the numeric contract. -/

/-- The clean list: values that are neither null nor NaN, with their
numeric payloads.  Embeds values.filter(v not null and not NaN). -/
def cleanValues (values : List (Option JsNum)) : List ℚ :=
  values.filterMap fun v =>
    match v with
    | some (JsNum.num q) => some q
    | _ => none

/-- Math.min over a spread argument list: the left fold of binary min.
The empty case never arises at the call site, which returns early when
fewer than two clean values exist. -/
def mathMin : List ℚ → ℚ
  | [] => 0
  | q :: qs => qs.foldl min q

/-- Math.max over a spread argument list: the left fold of binary max.
The empty case never arises at the call site. -/
def mathMax : List ℚ → ℚ
  | [] => 0
  | q :: qs => qs.foldl max q

/-- Dashboard.jsx Sparkline points computation: clean, early return
below two valid values, bounds with nullish fallback to the derived
extremes, span with falsy-or fallback to 1, then map with index and
drop the entries at null or NaN positions. -/
def sparklinePoints (values : List (Option JsNum)) (minB maxB : Option ℚ) :
    List (ℚ × ℚ) :=
  let clean := cleanValues values
  if clean.length < 2 then []
  else
    let lo := minB.getD (mathMin clean)
    let hi := maxB.getD (mathMax clean)
    let span := if hi - lo = 0 then 1 else hi - lo
    let step := (120 : ℚ) / ((values.length : ℚ) - 1)
    values.enum.filterMap fun iv =>
      match iv.2 with
      | some (JsNum.num q) =>
          some ((iv.1 : ℚ) * step, 28 - ((q - lo) / span) * 28)
      | _ => none

lemma cleanValues_replicate (n : Nat) (q : ℚ) :
    cleanValues (List.replicate n (some (JsNum.num q)))
      = List.replicate n q := by
  induction n with
  | zero => rfl
  | succ n ih =>
      rw [List.replicate_succ, List.replicate_succ, cleanValues,
        List.filterMap_cons]
      rw [cleanValues] at ih
      simp [ih]

lemma foldl_min_replicate (n : Nat) (q : ℚ) :
    (List.replicate n q).foldl min q = q := by
  induction n with
  | zero => rfl
  | succ n ih => rw [List.replicate_succ, List.foldl_cons, min_self]; exact ih

lemma foldl_max_replicate (n : Nat) (q : ℚ) :
    (List.replicate n q).foldl max q = q := by
  induction n with
  | zero => rfl
  | succ n ih => rw [List.replicate_succ, List.foldl_cons, max_self]; exact ih

lemma mathMin_replicate (n : Nat) (q : ℚ) (hn : 1 ≤ n) :
    mathMin (List.replicate n q) = q := by
  cases n with
  | zero => omega
  | succ n =>
      rw [List.replicate_succ]
      show (List.replicate n q).foldl min q = q
      exact foldl_min_replicate n q

lemma mathMax_replicate (n : Nat) (q : ℚ) (hn : 1 ≤ n) :
    mathMax (List.replicate n q) = q := by
  cases n with
  | zero => omega
  | succ n =>
      rw [List.replicate_succ]
      show (List.replicate n q).foldl max q = q
      exact foldl_max_replicate n q

/-- C7.  The Trend Normalizer returns an empty result when fewer than
two non-null, non-NaN values exist; otherwise it emits, only at the
non-null, non-NaN input positions and in input order with original
indices kept, the coordinates x = index times (W / (N - 1)) and
y = H - ((value - min) / span) times H for W = 120, H = 28, with
missing bounds derived from the values present and a degenerate
min = max span treated as 1; hence a constant-valued sequence yields
all-equal y and the sequence 0,1,2,3 with no explicit bounds yields
evenly spaced x. -/
theorem trend_normalizer_correct (values : List (Option JsNum))
    (minB maxB : Option ℚ) :
    ((cleanValues values).length < 2 →
      sparklinePoints values minB maxB = []) ∧
    (2 ≤ (cleanValues values).length →
      sparklinePoints values minB maxB =
        values.enum.filterMap fun iv =>
          match iv.2 with
          | some (JsNum.num q) =>
              some ((iv.1 : ℚ) * ((120 : ℚ) / ((values.length : ℚ) - 1)),
                28 - ((q - minB.getD (mathMin (cleanValues values))) /
                  (if maxB.getD (mathMax (cleanValues values))
                        = minB.getD (mathMin (cleanValues values))
                   then 1
                   else maxB.getD (mathMax (cleanValues values))
                        - minB.getD (mathMin (cleanValues values)))) * 28)
          | _ => none) ∧
    (∀ (n : Nat) (q : ℚ) (p : ℚ × ℚ),
      p ∈ sparklinePoints (List.replicate n (some (JsNum.num q))) none none →
      p.2 = 28) ∧
    sparklinePoints
        [some (JsNum.num 0), some (JsNum.num 1), some (JsNum.num 2),
         some (JsNum.num 3)] none none
      = [(0, 28), (40, 56/3), (80, 28/3), (120, 0)] := by
  refine ⟨?_, ?_, ?_, ?_⟩
  · intro h
    simp only [sparklinePoints]
    rw [if_pos h]
  · intro h
    simp only [sparklinePoints]
    rw [if_neg (by omega)]
    congr 1
    funext iv
    obtain ⟨i, v⟩ := iv
    match v with
    | none => rfl
    | some JsNum.nan => rfl
    | some (JsNum.num q) =>
        have hspan : ∀ a b : ℚ,
            (if a - b = 0 then (1 : ℚ) else a - b)
              = if a = b then 1 else a - b := by
          intro a b
          by_cases hab : a = b
          · simp [hab]
          · rw [if_neg (sub_ne_zero.mpr hab), if_neg hab]
        simp only [hspan]
  · intro n q p hp
    by_cases h2 :
        (cleanValues (List.replicate n (some (JsNum.num q)))).length < 2
    · simp only [sparklinePoints] at hp
      rw [if_pos h2] at hp
      exact absurd hp (List.not_mem_nil p)
    · have hn2 : 2 ≤ n := by
        rw [cleanValues_replicate, List.length_replicate] at h2
        omega
      simp only [sparklinePoints] at hp
      rw [if_neg h2] at hp
      obtain ⟨⟨i, v⟩, hmem, hf⟩ := List.mem_filterMap.mp hp
      have hv : v = some (JsNum.num q) :=
        List.eq_of_mem_replicate
          (List.of_mem_zip ((List.enum_eq_zip_range _) ▸ hmem)).2
      subst hv
      simp only [cleanValues_replicate, Option.getD_none,
        mathMin_replicate n q (by omega), mathMax_replicate n q (by omega),
        sub_self, if_pos, zero_div, zero_mul, sub_zero] at hf
      injection hf with hf
      rw [← hf]
  · show sparklinePoints
        [some (JsNum.num 0), some (JsNum.num 1), some (JsNum.num 2),
         some (JsNum.num 3)] none none
      = [(0, 28), (40, 56/3), (80, 28/3), (120, 0)]
    simp only [sparklinePoints, cleanValues, mathMin, mathMax,
      List.filterMap_cons, List.filterMap_nil, List.enum, List.enumFrom,
      List.foldl_cons, List.foldl_nil, Option.getD_none]
    norm_num [min_def, max_def]

/-- C7, witness: the below-two-valid-values early return at a concrete
one-element series, and the all-equal y coordinate at a concrete point
of a concrete constant series. -/
theorem trend_normalizer_correct_witness :
    sparklinePoints [some (JsNum.num 5)] none none = [] ∧
    ((0 : ℚ), (28 : ℚ)).2 = 28 :=
  ⟨(trend_normalizer_correct [some (JsNum.num 5)] none none).1 (by decide),
   (trend_normalizer_correct (List.replicate 2 (some (JsNum.num 0)))
      none none).2.2.1 2 0 (0, 28) (by
        simp [sparklinePoints, cleanValues, mathMin, List.enum,
          List.enumFrom, Option.getD_none])⟩

/-! ## Alert Classifier (Dashboard.jsx coolantStatus / voltStatus / fuelStatus)

Each classifier first maps a null field to a normal status and
otherwise applies JS numeric comparisons to the converted number.  A JS
comparison with NaN on either side is false, so every NaN value falls
through all branches to normal.  The comparison helpers embed exactly
that: false on NaN, the rational comparison otherwise. -/

inductive AlertStatus where
  | normal : AlertStatus
  | warn : AlertStatus
  | bad : AlertStatus
deriving DecidableEq, Repr

/-- JS comparison v >= c: false when v is NaN. -/
def jsGE (v : JsNum) (c : ℚ) : Bool :=
  match v with
  | JsNum.nan => false
  | JsNum.num q => decide (c ≤ q)

/-- JS comparison v < c: false when v is NaN. -/
def jsLT (v : JsNum) (c : ℚ) : Bool :=
  match v with
  | JsNum.nan => false
  | JsNum.num q => decide (q < c)

/-- JS comparison v > c: false when v is NaN. -/
def jsGT (v : JsNum) (c : ℚ) : Bool :=
  match v with
  | JsNum.nan => false
  | JsNum.num q => decide (c < q)

/-- JS comparison v <= c: false when v is NaN. -/
def jsLE (v : JsNum) (c : ℚ) : Bool :=
  match v with
  | JsNum.nan => false
  | JsNum.num q => decide (q ≤ c)

/-- Dashboard.jsx coolantStatus: null maps to normal, then bad at 110
and above, warn at 103 and above, else normal. -/
def coolantStatus (v : Option JsNum) : AlertStatus :=
  match v with
  | none => AlertStatus.normal
  | some c =>
      if jsGE c 110 then AlertStatus.bad
      else if jsGE c 103 then AlertStatus.warn
      else AlertStatus.normal

/-- Dashboard.jsx voltStatus: null maps to normal, then bad below 12,
warn below 12.6, warn above 15.2, else normal. -/
def voltStatus (v : Option JsNum) : AlertStatus :=
  match v with
  | none => AlertStatus.normal
  | some c =>
      if jsLT c 12 then AlertStatus.bad
      else if jsLT c 12.6 then AlertStatus.warn
      else if jsGT c 15.2 then AlertStatus.warn
      else AlertStatus.normal

/-- Dashboard.jsx fuelStatus: null maps to normal, then warn at 15 and
below, else normal. -/
def fuelStatus (v : Option JsNum) : AlertStatus :=
  match v with
  | none => AlertStatus.normal
  | some c =>
      if jsLE c 15 then AlertStatus.warn else AlertStatus.normal

/-- C8.  The Alert Classifier is total over null and NaN, both of which
classify as normal for every metric; coolant temperature is bad exactly
at 110 and above, warn exactly on the band from 103 up to but excluding
110, and normal exactly below 103; control-module voltage is bad
exactly below 12, warn exactly on the band from 12 up to but excluding
12.6 or strictly above 15.2, and normal exactly from 12.6 to 15.2
inclusive; fuel level is warn exactly at 15 and below, normal exactly
above 15, and never bad. -/
theorem alert_classifier_correct :
    (coolantStatus none = AlertStatus.normal ∧
     coolantStatus (some JsNum.nan) = AlertStatus.normal ∧
     voltStatus none = AlertStatus.normal ∧
     voltStatus (some JsNum.nan) = AlertStatus.normal ∧
     fuelStatus none = AlertStatus.normal ∧
     fuelStatus (some JsNum.nan) = AlertStatus.normal) ∧
    (∀ q : ℚ,
      (coolantStatus (some (JsNum.num q)) = AlertStatus.bad ↔ 110 ≤ q) ∧
      (coolantStatus (some (JsNum.num q)) = AlertStatus.warn ↔
        103 ≤ q ∧ q < 110) ∧
      (coolantStatus (some (JsNum.num q)) = AlertStatus.normal ↔ q < 103)) ∧
    (∀ q : ℚ,
      (voltStatus (some (JsNum.num q)) = AlertStatus.bad ↔ q < 12) ∧
      (voltStatus (some (JsNum.num q)) = AlertStatus.warn ↔
        (12 ≤ q ∧ q < 12.6) ∨ 15.2 < q) ∧
      (voltStatus (some (JsNum.num q)) = AlertStatus.normal ↔
        12.6 ≤ q ∧ q ≤ 15.2)) ∧
    (∀ q : ℚ,
      (fuelStatus (some (JsNum.num q)) = AlertStatus.warn ↔ q ≤ 15) ∧
      (fuelStatus (some (JsNum.num q)) = AlertStatus.normal ↔ 15 < q) ∧
      fuelStatus (some (JsNum.num q)) ≠ AlertStatus.bad) := by
  refine ⟨⟨rfl, rfl, rfl, rfl, rfl, rfl⟩, ?_, ?_, ?_⟩
  · intro q
    rcases lt_or_le q 103 with h1 | h1
    · have hx : ¬ (110 : ℚ) ≤ q := by linarith
      have hy : ¬ (103 : ℚ) ≤ q := by linarith
      have e : coolantStatus (some (JsNum.num q)) = AlertStatus.normal := by
        simp [coolantStatus, jsGE, hx, hy]
      rw [e]
      exact ⟨iff_of_false (by simp) hx,
        iff_of_false (by simp) (by rintro ⟨a, b⟩; linarith),
        iff_of_true rfl h1⟩
    · rcases lt_or_le q 110 with h2 | h2
      · have hx : ¬ (110 : ℚ) ≤ q := by linarith
        have e : coolantStatus (some (JsNum.num q)) = AlertStatus.warn := by
          simp [coolantStatus, jsGE, hx, h1]
        rw [e]
        exact ⟨iff_of_false (by simp) hx,
          iff_of_true rfl ⟨h1, h2⟩,
          iff_of_false (by simp) (by linarith)⟩
      · have e : coolantStatus (some (JsNum.num q)) = AlertStatus.bad := by
          simp [coolantStatus, jsGE, h2]
        rw [e]
        exact ⟨iff_of_true rfl h2,
          iff_of_false (by simp) (by rintro ⟨a, b⟩; linarith),
          iff_of_false (by simp) (by linarith)⟩
  · intro q
    rcases lt_or_le q 12 with h1 | h1
    · have e : voltStatus (some (JsNum.num q)) = AlertStatus.bad := by
        simp [voltStatus, jsLT, h1]
      rw [e]
      exact ⟨iff_of_true rfl h1,
        iff_of_false (by simp) (by rintro (⟨a, b⟩ | c) <;> linarith),
        iff_of_false (by simp) (by rintro ⟨a, b⟩; linarith)⟩
    · rcases lt_or_le q 12.6 with h2 | h2
      · have hx : ¬ q < (12 : ℚ) := by linarith
        have e : voltStatus (some (JsNum.num q)) = AlertStatus.warn := by
          simp [voltStatus, jsLT, hx, h2]
        rw [e]
        exact ⟨iff_of_false (by simp) hx,
          iff_of_true rfl (Or.inl ⟨h1, h2⟩),
          iff_of_false (by simp) (by rintro ⟨a, b⟩; linarith)⟩
      · rcases le_or_lt q 15.2 with h3 | h3
        · have hx : ¬ q < (12 : ℚ) := by linarith
          have hy : ¬ q < (12.6 : ℚ) := by linarith
          have hz : ¬ (15.2 : ℚ) < q := by linarith
          have e : voltStatus (some (JsNum.num q)) = AlertStatus.normal := by
            simp [voltStatus, jsLT, jsGT, hx, hy, hz]
          rw [e]
          exact ⟨iff_of_false (by simp) hx,
            iff_of_false (by simp) (by rintro (⟨a, b⟩ | c) <;> linarith),
            iff_of_true rfl ⟨h2, h3⟩⟩
        · have hx : ¬ q < (12 : ℚ) := by linarith
          have hy : ¬ q < (12.6 : ℚ) := by linarith
          have e : voltStatus (some (JsNum.num q)) = AlertStatus.warn := by
            simp [voltStatus, jsLT, jsGT, hx, hy, h3]
          rw [e]
          exact ⟨iff_of_false (by simp) hx,
            iff_of_true rfl (Or.inr h3),
            iff_of_false (by simp) (by rintro ⟨a, b⟩; linarith)⟩
  · intro q
    rcases le_or_lt q 15 with h1 | h1
    · have e : fuelStatus (some (JsNum.num q)) = AlertStatus.warn := by
        simp [fuelStatus, jsLE, h1]
      rw [e]
      exact ⟨iff_of_true rfl h1,
        iff_of_false (by simp) (by linarith), by simp⟩
    · have hx : ¬ q ≤ (15 : ℚ) := by linarith
      have e : fuelStatus (some (JsNum.num q)) = AlertStatus.normal := by
        simp [fuelStatus, jsLE, hx]
      rw [e]
      exact ⟨iff_of_false (by simp) hx, iff_of_true rfl h1, by simp⟩

/-! ## Series projection (Dashboard.jsx series)

A telemetry record is a JSON object holding numeric fields; the model
is an association list from field names to JS numbers, where an absent
key is exactly what the JS test m[key] == null detects.  The series
helper maps the projection of one field across the whole detail
window. -/

def TelemetryRecord : Type := List (String × JsNum)

/-- Field access m[key] on a record: the value of the first binding of
the key, or null when the record lacks the field. -/
def getField (m : TelemetryRecord) (key : String) : Option JsNum :=
  (m.find? fun kv => kv.1 == key).map fun kv => kv.2

/-- Dashboard.jsx series: map each record of the detail window to the
field value, null when absent, the number itself otherwise (Number on a
JS number is the identity, NaN staying NaN). -/
def series (history : List TelemetryRecord) (key : String) :
    List (Option JsNum) :=
  history.map fun m => getField m key

/-- C9.  For every detail window and field name, series has exactly one
entry per record, the entry at every position being the field value of
the record at the same position: null (never some substitute such as 0)
exactly at the positions whose record lacks the field, and the actual
stored number at the positions whose record has it — positional
alignment with time is preserved. -/
theorem series_alignment (history : List TelemetryRecord) (key : String) :
    (series history key).length = history.length ∧
    (∀ i : Nat, (series history key)[i]? =
      (history[i]?).map fun m => getField m key) ∧
    (∀ (i : Nat) (m : TelemetryRecord), history[i]? = some m →
      getField m key = none → (series history key)[i]? = some none) ∧
    (∀ (i : Nat) (m : TelemetryRecord) (v : JsNum), history[i]? = some m →
      getField m key = some v → (series history key)[i]? = some (some v)) := by
  refine ⟨List.length_map _ _, ?_, ?_, ?_⟩
  · intro i
    exact List.getElem?_map _ _ _
  · intro i m hm hf
    rw [series, List.getElem?_map, hm]
    simp [hf]
  · intro i m v hm hf
    rw [series, List.getElem?_map, hm]
    simp [hf]

/-- C9, witness: a concrete two-record window in which the first record
has the field and the second lacks it. -/
theorem series_alignment_witness :
    (series [[(("rpm"), JsNum.num 3)], []] ("rpm"))[0]?
        = some (some (JsNum.num 3)) ∧
    (series [[(("rpm"), JsNum.num 3)], []] ("rpm"))[1]? = some none :=
  ⟨(series_alignment [[(("rpm"), JsNum.num 3)], []] ("rpm")).2.2.2 0
      [(("rpm"), JsNum.num 3)] (JsNum.num 3) rfl rfl,
   (series_alignment [[(("rpm"), JsNum.num 3)], []] ("rpm")).2.2.1 1 [] rfl
      rfl⟩

/-! ## Diagnostic trouble code normalization (unnamed part_003 dtcs.map)

A DTC in the snapshot is either a bare string or a structured object;
the consumption site tests typeof and builds the common display shape
code, status, description, with String applied to a bare code and null
filled in for its missing status and description. -/

inductive DtcEntry where
  | str : String → DtcEntry
  | obj : Option String → Option String → Option String → DtcEntry
deriving DecidableEq, Repr

structure DtcDisplay where
  code : Option String
  status : Option String
  description : Option String
deriving DecidableEq, Repr

/-- The per-entry body of dtcs.map: isObj branches on the
representation; a bare string s yields code String(s) = s with null
status and description; a structured entry passes its three fields
through unchanged. -/
def normalizeDtc : DtcEntry → DtcDisplay
  | DtcEntry.str s => ⟨some s, none, none⟩
  | DtcEntry.obj c st d => ⟨c, st, d⟩

/-- C10.  Every diagnostic trouble code resolves to the common display
shape: a bare identifier string s normalizes to code s with null status
and description, and a structured record passes through with all three
fields unchanged — in particular the two representative inputs of the
spec. -/
theorem dtc_normalization (s : String) (c st d : Option String) :
    normalizeDtc (DtcEntry.str s) = ⟨some s, none, none⟩ ∧
    normalizeDtc (DtcEntry.obj c st d) = ⟨c, st, d⟩ ∧
    normalizeDtc (DtcEntry.str ("P0301"))
      = ⟨some ("P0301"), none, none⟩ ∧
    normalizeDtc (DtcEntry.obj (some ("P0171")) (some ("active"))
        (some ("System too lean")))
      = ⟨some ("P0171"), some ("active"), some ("System too lean")⟩ :=
  ⟨rfl, rfl, rfl, rfl⟩

end CarTools
